import Mathlib

/-!
Verification of the `adsb` crate (Mode-S / ADS-B decoder) against its
natural-language specification.

The Rust sources are shallowly embedded below:
* `src/types.rs`  — the data model (messages, squawk, CPR frames, ...);
* `src/crc.rs`    — the table-driven CRC-24 engine;
* `src/parser.rs` — the nom-based bit-level message grammar;
* `src/cpr.rs`    — the CPR position resolver and the NL zone table.

Machine integers are embedded as `Nat` (with explicit `% 2^w` or masks at
the points where the Rust width matters), bytes as `Fin 256`, fallible
code as `Except`, and `f64` values as `ℚ` (every floating literal in the
source is a short decimal constant; it is modelled by the exact rational
it denotes, and no claim under verification depends on rounding).

The nom combinator framework is embedded explicitly: a bit-level input is
a pair of the not-yet-consumed byte slice and a bit offset into its first
byte, exactly as in `nom::bits`; `take`/`tag`/`peek` mirror
`nom::bits::complete::take`, `tag` and `nom::combinator::peek`, and `alt`
is explicit ordered choice.  All nom failures in the source are
recoverable `Err::Error` values, so errors are a plain sum type.
-/

deriving instance DecidableEq for Except

namespace Adsb

/-- A byte of the input frame (`u8`). -/
abbrev Byte := Fin 256

/-! ## Data model: `src/types.rs` -/

/-- `ICAOAddress(u8, u8, u8)` from `types.rs`. -/
structure ICAOAddress where
  b0 : ℕ
  b1 : ℕ
  b2 : ℕ
deriving DecidableEq, Repr

/-- `Squawk(u8, u8)` from `types.rs`. -/
structure Squawk where
  hi : ℕ
  lo : ℕ
deriving DecidableEq, Repr

/-- `impl From<u16> for Squawk` in `types.rs`:
`Squawk(((value & 0xFF00) >> 8) as u8, (value & 0x00FF) as u8)`.
`parser.rs` calls this conversion as `Squawk::from_u16`. -/
def Squawk.from_u16 (value : ℕ) : Squawk :=
  ⟨(value &&& 0xFF00) >>> 8, value &&& 0x00FF⟩

/-- `Parity` from `types.rs`. -/
inductive Parity where
  | even
  | odd
deriving DecidableEq, Repr

/-- `Position { latitude: f64, longitude: f64 }` from `types.rs`
(`f64` modelled as `ℚ`). -/
structure Position where
  latitude : ℚ
  longitude : ℚ
deriving DecidableEq, Repr

/-- `CPRFrame` from `types.rs`. -/
structure CPRFrame where
  position : Position
  parity : Parity
deriving DecidableEq, Repr

/-- `VerticalRateSource` from `types.rs`. -/
inductive VerticalRateSource where
  | barometricPressureAltitude
  | geometricAltitude
deriving DecidableEq, Repr

/-- `ADSBMessageKind` from `types.rs`.

In the source the `AirborneVelocity` variant stores `heading: f64` and
`ground_speed: f64`, both computed by pure float arithmetic
(`atan2`, `sqrt`) from the two exact signed integer velocity components
`v_ew` and `v_ns`; the variant is embedded with those integer components
(the only values of that variant any claim refers to are the exact
fields `vertical_rate` and `vertical_rate_source`). -/
inductive ADSBMessageKind where
  | aircraftIdentification (emitter_category : ℕ) (callsign : List ℕ)
  | airbornePosition (altitude : ℕ) (cpr_frame : CPRFrame)
  | airborneVelocity (v_ew v_ns : ℤ) (vertical_rate : ℤ)
      (vertical_rate_source : VerticalRateSource)
deriving DecidableEq, Repr

/-- `ModeSMessageKind` from `types.rs`. -/
inductive ModeSMessageKind where
  | surveillanceIdentity (squawk : Squawk)
deriving DecidableEq, Repr

/-- `MessageKind` from `types.rs`. -/
inductive MessageKind where
  | adsbMessage (capability : ℕ) (icao_address : ICAOAddress)
      (type_code : ℕ) (kind : ADSBMessageKind)
  | modeSMessage (icao_address : ICAOAddress) (kind : ModeSMessageKind)
  | unknown
deriving DecidableEq, Repr

/-- `Message` from `types.rs`. -/
structure Message where
  downlink_format : ℕ
  kind : MessageKind
deriving DecidableEq, Repr

/-! ## CRC-24 engine: `src/crc.rs` -/

/-- `MODES_GENERATOR_POLY` from `crc.rs`. -/
def MODES_GENERATOR_POLY : ℕ := 0xfff409

/-- One round of the table-generation loop body in `crc.rs`
(`u32` arithmetic, hence the `% 2^32`; the shift in fact never
overflows 32 bits for the values reached from table generation). -/
def crcStep (c : ℕ) : ℕ :=
  if c &&& 0x800000 ≠ 0 then ((c <<< 1) ^^^ MODES_GENERATOR_POLY) % 2 ^ 32
  else (c <<< 1) % 2 ^ 32

/-- Entry `i` of the lazily generated 256-entry `CRC_TABLE` in `crc.rs`:
start from `i << 16`, apply 8 rounds, keep the low 24 bits. -/
def crcTableEntry (i : ℕ) : ℕ :=
  (crcStep^[8] (i <<< 16)) &&& 0x00ffffff

/-- `CrcError` from `crc.rs`. -/
inductive CrcError where
  | inputTooShort
deriving DecidableEq, Repr

/-- `get_crc_remainder` from `crc.rs`: fails when fewer than 3 bytes are
given; otherwise runs the table-driven remainder over all bytes except
the last three, then XORs in the trailing three bytes as one 24-bit
value. -/
def get_crc_remainder (input : List Byte) : Except CrcError ℕ :=
  if input.length < 3 then .error .inputTooShort
  else
    let rem := (input.take (input.length - 3)).foldl
      (fun rem byte =>
        let idx := byte.val ^^^ ((rem &&& 0xff0000) >>> 16)
        ((rem <<< 8) ^^^ crcTableEntry idx) &&& 0xffffff) 0
    .ok (rem ^^^ ((input.getD (input.length - 3) 0).val <<< 16)
             ^^^ ((input.getD (input.length - 2) 0).val <<< 8)
             ^^^ (input.getD (input.length - 1) 0).val)

/-- Modelled from the spec: `mode_s_crc` is called by
`parse_mode_s_message` in `parser.rs` but its definition is not among
the sources of the repository.  Per spec §4.2a the ICAO address of a
DF5 frame is recovered by running the standard CRC-24 remainder
computation (§4.4, `get_crc_remainder`) over the entire 7-byte frame
including its trailing parity bytes; accordingly `mode_s_crc bytes n`
is the CRC-24 remainder of the first `n` bytes of the buffer. -/
def mode_s_crc (bytes : List Byte) (n : ℕ) : Except CrcError ℕ :=
  get_crc_remainder (bytes.take n)

/-! ## Bit-level parsing infrastructure (the embedding of `nom::bits`) -/

/-- The error taxonomy of the parser.  Every nom failure produced in
`parser.rs` is a recoverable `Err::Error` carrying an `ErrorKind`:
`eof` for an exhausted input (`ErrorKind::Eof`), `tagMismatch` for a
failed `tag_bits` (`ErrorKind::TagBits`), `verifyFail` for a failed
`verify` (`ErrorKind::Verify`), `tooLarge` for the two
`make_error(.., ErrorKind::TooLarge)` sites (checked arithmetic
overflow), and `lengthValue` for `make_error(.., ErrorKind::LengthValue)`
when `mode_s_crc` fails. -/
inductive PError where
  | eof
  | tagMismatch
  | verifyFail
  | tooLarge
  | lengthValue
deriving DecidableEq, Repr

/-- A nom bit-level input `(&[u8], usize)`: the not-yet-consumed byte
slice together with the bit offset into its first byte (always `< 8`
for states produced by `takeBitsN`). -/
abbrev BitState := List Byte × ℕ

/-- Bit number `i` (big-endian within each byte) of a byte slice;
positions past the end read as 0, but `takeBitsN` only ever evaluates
positions it has bounds-checked. -/
def bitAt (bs : List Byte) (i : ℕ) : ℕ :=
  ((bs.getD (i / 8) 0).val >>> (7 - i % 8)) &&& 1

/-- The value of `n` bits starting at bit offset `off`, accumulated
most-significant-bit first, exactly as the loop of
`nom::bits::complete::take` accumulates them. -/
def readBits (bs : List Byte) (off : ℕ) : ℕ → ℕ
  | 0 => 0
  | n + 1 => 2 * readBits bs off n + bitAt bs (off + n)

/-- `nom::bits::complete::take(n)`: for `n = 0` succeed with value 0
without consuming; otherwise fail with `Eof` when fewer than `n` bits
remain, else return the advanced input (fully consumed bytes are
dropped from the slice, the offset becomes `(n + off) % 8`) and the
extracted value. -/
def takeBitsN (n : ℕ) : BitState → Except PError (BitState × ℕ)
  | (input, off) =>
    if n = 0 then .ok ((input, off), 0)
    else if input.length * 8 < n + off then .error .eof
    else .ok ((input.drop ((n + off) / 8), (n + off) % 8), readBits input off n)

/-- `nom::bits::complete::tag(pat, n)`: take `n` bits and fail unless
they equal `pat`. -/
def tagBitsN (n pat : ℕ) (s : BitState) : Except PError BitState :=
  match takeBitsN n s with
  | .error e => .error e
  | .ok (s1, v) => if v = pat then .ok s1 else .error .tagMismatch

/-- `nom::combinator::peek`: run `take` but hand back the original
input. -/
def peekBitsN (n : ℕ) (s : BitState) : Except PError (BitState × ℕ) :=
  match takeBitsN n s with
  | .error e => .error e
  | .ok (_, v) => .ok (s, v)

/-- `nom::branch::alt` restricted to two branches: ordered choice, the
second branch (and in particular its error) is returned when the first
fails. -/
def orElse2 {α : Type} (a b : Except PError α) : Except PError α :=
  match a with
  | .ok v => .ok v
  | .error _ => b

/-- `nom::multi::many_m_n(k, k, take_bits(n))`: exactly `k` repetitions
of an `n`-bit take, collecting the values (an error before the `k`-th
repetition aborts the whole repetition, as in nom). -/
def repeatTake (n : ℕ) : ℕ → BitState → Except PError (BitState × List ℕ)
  | 0, s => .ok (s, [])
  | k + 1, s =>
    match takeBitsN n s with
    | .error e => .error e
    | .ok (s1, v) =>
      match repeatTake n k s1 with
      | .error e => .error e
      | .ok (s2, vs) => .ok (s2, v :: vs)

/-! ## Message grammar: `src/parser.rs` -/

/-- `CHAR_LOOKUP` from `parser.rs`, the 64-byte table
`b"#ABCDEFGHIJKLMNOPQRSTUVWXYZ##### ###############0123456789######"`
written out as ASCII codes (`#` = 35, space = 32, `A`..`Z` = 65..90,
`0`..`9` = 48..57). -/
def CHAR_LOOKUP : List ℕ :=
  [35, 65, 66, 67, 68, 69, 70, 71, 72, 73, 74, 75, 76, 77, 78, 79,
   80, 81, 82, 83, 84, 85, 86, 87, 88, 89, 90, 35, 35, 35, 35, 35,
   32, 35, 35, 35, 35, 35, 35, 35, 35, 35, 35, 35, 35, 35, 35, 35,
   48, 49, 50, 51, 52, 53, 54, 55, 56, 57, 35, 35, 35, 35, 35, 35]

/-- `decode_callsign` from `parser.rs`: map each 6-bit code through
`CHAR_LOOKUP` (every code produced by the parser is `< 64`, so the
`getD` default is never used). -/
def decode_callsign (encoded : List ℕ) : List ℕ :=
  encoded.map (fun b => CHAR_LOOKUP.getD b 0)

/-- `parse_aircraft_identification` from `parser.rs`:
`verify(take_bits(5), 1 <= tc <= 4)`, a 3-bit emitter category, then
eight 6-bit character codes decoded into the callsign. -/
def parse_aircraft_identification (input : BitState) :
    Except PError (BitState × ADSBMessageKind) :=
  match takeBitsN 5 input with
  | .error e => .error e
  | .ok (s1, tc) =>
    if 1 ≤ tc ∧ tc ≤ 4 then
      match takeBitsN 3 s1 with
      | .error e => .error e
      | .ok (s2, emitter_category) =>
        match repeatTake 6 8 s2 with
        | .error e => .error e
        | .ok (s3, codes) =>
          .ok (s3, .aircraftIdentification emitter_category (decode_callsign codes))
    else .error .verifyFail

/-- `u16::rotate_left(x, n)` for `x < 2^16`:
`((x << n) | (x >> (16 - n))) mod 2^16`. -/
def rotateLeft16 (x n : ℕ) : ℕ :=
  ((x <<< n) ||| (x >>> (16 - n))) &&& 0xFFFF

/-- `parse_altitude` from `parser.rs`: a 7-bit field `l`, one bit
selecting the resolution `q` (`0` ↦ 100, `1` ↦ 25, via
`alt((tag_bits(0b0), tag_bits(0b1)))`), a 4-bit field `r`; then
`(l.rotate_left(4) + r).checked_mul(q).and_then(|x| x.checked_sub(1000))`
in `u16` arithmetic — `None` (overflow of the multiply, or the subtract
going below zero) becomes `ErrorKind::TooLarge`.  The unchecked `u16`
addition is written with its wrapping `% 2^16` (it in fact never
wraps: `l < 2^7`). -/
def parse_altitude (input : BitState) : Except PError (BitState × ℕ) :=
  match takeBitsN 7 input with
  | .error e => .error e
  | .ok (s1, l) =>
    match orElse2
        (match tagBitsN 1 0 s1 with
         | .error e => .error e
         | .ok s2 => .ok (s2, 100))
        (match tagBitsN 1 1 s1 with
         | .error e => .error e
         | .ok s2 => .ok (s2, 25)) with
    | .error e => .error e
    | .ok (s2, q) =>
      match takeBitsN 4 s2 with
      | .error e => .error e
      | .ok (s3, r) =>
        let sum := (rotateLeft16 l 4 + r) % 2 ^ 16
        if sum * q ≤ 0xFFFF then
          if 1000 ≤ sum * q then .ok (s3, sum * q - 1000)
          else .error .tooLarge
        else .error .tooLarge

/-- `parse_cpr_parity` from `parser.rs`: one bit, `0` ↦ even, `1` ↦ odd. -/
def parse_cpr_parity (input : BitState) : Except PError (BitState × Parity) :=
  orElse2
    (match tagBitsN 1 0 input with
     | .error e => .error e
     | .ok s1 => .ok (s1, Parity.even))
    (match tagBitsN 1 1 input with
     | .error e => .error e
     | .ok s1 => .ok (s1, Parity.odd))

/-- `parse_coordinate` from `parser.rs`: a raw 17-bit CPR coordinate. -/
def parse_coordinate (input : BitState) : Except PError (BitState × ℕ) :=
  takeBitsN 17 input

/-- `parse_airborne_position` from `parser.rs`:
`verify(take_bits(5), 9 <= tc <= 18)`, 3 status bits, the altitude,
one reserved bit, the CPR parity bit and two 17-bit raw coordinates
(stored into the `f64` position fields via `u32 -> f64`, exact). -/
def parse_airborne_position (input : BitState) :
    Except PError (BitState × ADSBMessageKind) :=
  match takeBitsN 5 input with
  | .error e => .error e
  | .ok (s1, tc) =>
    if 9 ≤ tc ∧ tc ≤ 18 then
      match takeBitsN 3 s1 with
      | .error e => .error e
      | .ok (s2, _) =>
        match parse_altitude s2 with
        | .error e => .error e
        | .ok (s3, altitude) =>
          match takeBitsN 1 s3 with
          | .error e => .error e
          | .ok (s4, _) =>
            match parse_cpr_parity s4 with
            | .error e => .error e
            | .ok (s5, cpr_parity) =>
              match parse_coordinate s5 with
              | .error e => .error e
              | .ok (s6, cpr_latitude) =>
                match parse_coordinate s6 with
                | .error e => .error e
                | .ok (s7, cpr_longitude) =>
                  .ok (s7, .airbornePosition altitude
                    ⟨⟨(cpr_latitude : ℚ), (cpr_longitude : ℚ)⟩, cpr_parity⟩)
    else .error .verifyFail

/-- `parse_vertical_rate_source` from `parser.rs`. -/
def parse_vertical_rate_source (input : BitState) :
    Except PError (BitState × VerticalRateSource) :=
  orElse2
    (match tagBitsN 1 0 input with
     | .error e => .error e
     | .ok s1 => .ok (s1, VerticalRateSource.barometricPressureAltitude))
    (match tagBitsN 1 1 input with
     | .error e => .error e
     | .ok s1 => .ok (s1, VerticalRateSource.geometricAltitude))

/-- `parse_sign` from `parser.rs`: `0` ↦ `1`, `1` ↦ `-1` (an `i16`). -/
def parse_sign (input : BitState) : Except PError (BitState × ℤ) :=
  orElse2
    (match tagBitsN 1 0 input with
     | .error e => .error e
     | .ok s1 => .ok (s1, (1 : ℤ)))
    (match tagBitsN 1 1 input with
     | .error e => .error e
     | .ok s1 => .ok (s1, (-1 : ℤ)))

/-- `parse_velocity` from `parser.rs`: a 10-bit magnitude. -/
def parse_velocity (input : BitState) : Except PError (BitState × ℕ) :=
  takeBitsN 10 input

/-- `parse_vertical_rate` from `parser.rs`: a 9-bit magnitude. -/
def parse_vertical_rate (input : BitState) : Except PError (BitState × ℕ) :=
  takeBitsN 9 input

/-- The `u16 -> i16` bit cast (`v as i16` in Rust). -/
def castI16 (x : ℕ) : ℤ :=
  if x < 2 ^ 15 then (x : ℤ) else (x : ℤ) - 2 ^ 16

/-- `parse_airborne_velocity` from `parser.rs`:
`verify(take_bits(5), tc == 19)`, `verify(take_bits(3), st == 1)`,
5 reserved bits, then per-axis sign and 10-bit magnitude, the vertical
rate source, sign and 9-bit magnitude, and 10 reserved bits.  The
component velocities are `(magnitude as i16 - 1) * sign` (exact in `ℤ`;
the magnitudes are `< 2^10` so the `u16 -> i16` casts are the
identity); the vertical rate is
`value.checked_sub(1).and_then(|v| v.checked_mul(64))` in `u16` (a
failed check becomes `ErrorKind::TooLarge`) followed by the `i16` cast
and the sign.  The `heading`/`ground_speed` floats of the source are
represented by the exact components they are computed from (see
`ADSBMessageKind`). -/
def parse_airborne_velocity (input : BitState) :
    Except PError (BitState × ADSBMessageKind) :=
  match takeBitsN 5 input with
  | .error e => .error e
  | .ok (s1, tc) =>
    if tc = 19 then
      match takeBitsN 3 s1 with
      | .error e => .error e
      | .ok (s2, st) =>
        if st = 1 then
          match takeBitsN 5 s2 with
          | .error e => .error e
          | .ok (s3, _) =>
            match parse_sign s3 with
            | .error e => .error e
            | .ok (s4, ew_sign) =>
              match parse_velocity s4 with
              | .error e => .error e
              | .ok (s5, ew_vel) =>
                match parse_sign s5 with
                | .error e => .error e
                | .ok (s6, ns_sign) =>
                  match parse_velocity s6 with
                  | .error e => .error e
                  | .ok (s7, ns_vel) =>
                    match parse_vertical_rate_source s7 with
                    | .error e => .error e
                    | .ok (s8, vrate_src) =>
                      match parse_sign s8 with
                      | .error e => .error e
                      | .ok (s9, vrate_sign) =>
                        match parse_vertical_rate s9 with
                        | .error e => .error e
                        | .ok (s10, vrate_value) =>
                          match takeBitsN 10 s10 with
                          | .error e => .error e
                          | .ok (s11, _) =>
                            let v_ew := ((ew_vel : ℤ) - 1) * ew_sign
                            let v_ns := ((ns_vel : ℤ) - 1) * ns_sign
                            if vrate_value = 0 then .error .tooLarge
                            else if ¬ ((vrate_value - 1) * 64 ≤ 0xFFFF) then
                              .error .tooLarge
                            else
                              .ok (s11, .airborneVelocity v_ew v_ns
                                (castI16 ((vrate_value - 1) * 64) * vrate_sign)
                                vrate_src)
        else .error .verifyFail
    else .error .verifyFail

/-- `parse_icao_address` from `parser.rs`: three 8-bit fields. -/
def parse_icao_address (input : BitState) :
    Except PError (BitState × ICAOAddress) :=
  match takeBitsN 8 input with
  | .error e => .error e
  | .ok (s1, a) =>
    match takeBitsN 8 s1 with
    | .error e => .error e
    | .ok (s2, b) =>
      match takeBitsN 8 s2 with
      | .error e => .error e
      | .ok (s3, c) => .ok (s3, ⟨a, b, c⟩)

/-- `parse_adsb_message_kind` from `parser.rs`: ordered choice among
the three supported payload grammars. -/
def parse_adsb_message_kind (input : BitState) :
    Except PError (BitState × ADSBMessageKind) :=
  orElse2 (parse_aircraft_identification input)
    (orElse2 (parse_airborne_position input)
      (parse_airborne_velocity input))

/-- `parse_adsb_message` from `parser.rs`: `alt((DF=17, DF=18))` tag,
3 capability bits, the ICAO address, a peeked 5-bit type code, and the
payload. -/
def parse_adsb_message (input : BitState) :
    Except PError (BitState × MessageKind) :=
  match orElse2 (tagBitsN 5 0b10001 input) (tagBitsN 5 0b10010 input) with
  | .error e => .error e
  | .ok s1 =>
    match takeBitsN 3 s1 with
    | .error e => .error e
    | .ok (s2, capability) =>
      match parse_icao_address s2 with
      | .error e => .error e
      | .ok (s3, icao_address) =>
        match peekBitsN 5 s3 with
        | .error e => .error e
        | .ok (s4, type_code) =>
          match parse_adsb_message_kind s4 with
          | .error e => .error e
          | .ok (s5, kind) =>
            .ok (s5, .adsbMessage capability icao_address type_code kind)

/-- `parse_unknown` from `parser.rs`: always succeeds, consumes
nothing. -/
def parse_unknown (input : BitState) : Except PError (BitState × MessageKind) :=
  .ok (input, .unknown)

/-- `decode_id_13_field` from `parser.rs`: the fixed Gillham squawk
bit rearrangement.  Note bit 6 (the X/M bit) is commented out in the
source and therefore dropped. -/
def decode_id_13_field (f : ℕ) : ℕ :=
  let h := 0
  let h := if f &&& 0x1000 ≠ 0 then h ||| 0x0010 else h  -- Bit 12 = C1
  let h := if f &&& 0x0800 ≠ 0 then h ||| 0x1000 else h  -- Bit 11 = A1
  let h := if f &&& 0x0400 ≠ 0 then h ||| 0x0020 else h  -- Bit 10 = C2
  let h := if f &&& 0x0200 ≠ 0 then h ||| 0x2000 else h  -- Bit  9 = A2
  let h := if f &&& 0x0100 ≠ 0 then h ||| 0x0040 else h  -- Bit  8 = C4
  let h := if f &&& 0x0080 ≠ 0 then h ||| 0x4000 else h  -- Bit  7 = A4
  -- Bit 6 = X or M: commented out in the source, the bit is dropped
  let h := if f &&& 0x0020 ≠ 0 then h ||| 0x0100 else h  -- Bit  5 = B1
  let h := if f &&& 0x0010 ≠ 0 then h ||| 0x0001 else h  -- Bit  4 = D1 or Q
  let h := if f &&& 0x0008 ≠ 0 then h ||| 0x0200 else h  -- Bit  3 = B2
  let h := if f &&& 0x0004 ≠ 0 then h ||| 0x0002 else h  -- Bit  2 = D2
  let h := if f &&& 0x0002 ≠ 0 then h ||| 0x0400 else h  -- Bit  1 = B4
  let h := if f &&& 0x0001 ≠ 0 then h ||| 0x0004 else h  -- Bit  0 = D4
  h

/-- `parse_surveillance_identity` from `parser.rs`: the DF=5 tag,
3 flight-status bits, 5 downlink-request bits, 6 utility-message bits,
the 13-bit identity code and the 24-bit parity field.  The source
binds the advanced cursor to `_input` and returns the ORIGINAL `input`,
so a success hands back the entry state unconsumed. -/
def parse_surveillance_identity (input : BitState) :
    Except PError (BitState × ModeSMessageKind) :=
  match tagBitsN 5 0b00101 input with
  | .error e => .error e
  | .ok s1 =>
    match takeBitsN 3 s1 with
    | .error e => .error e
    | .ok (s2, _) =>
      match takeBitsN 5 s2 with
      | .error e => .error e
      | .ok (s3, _) =>
        match takeBitsN 6 s3 with
        | .error e => .error e
        | .ok (s4, _) =>
          match takeBitsN 13 s4 with
          | .error e => .error e
          | .ok (s5, id_code) =>
            match takeBitsN 24 s5 with
            | .error e => .error e
            | .ok (_, _) =>
              .ok (input, .surveillanceIdentity
                (Squawk.from_u16 (decode_id_13_field id_code)))

/-- `parse_mode_s_message_kind` from `parser.rs`. -/
def parse_mode_s_message_kind (input : BitState) :
    Except PError (BitState × ModeSMessageKind) :=
  parse_surveillance_identity input

/-- `parse_mode_s_message` from `parser.rs`: parse the kind (which
leaves the cursor at the entry position), then recover the ICAO
address as the CRC-24 remainder of the first 7 bytes of the remaining
slice (`mode_s_crc(input.0, 7)`); a CRC failure becomes
`ErrorKind::LengthValue`. -/
def parse_mode_s_message (input : BitState) :
    Except PError (BitState × MessageKind) :=
  match parse_mode_s_message_kind input with
  | .error e => .error e
  | .ok (s1, kind) =>
    match mode_s_crc s1.1 7 with
    | .error _ => .error .lengthValue
    | .ok crc =>
      .ok (s1, .modeSMessage
        ⟨(crc &&& 0xFF0000) >>> 16, (crc &&& 0x00FF00) >>> 8, crc &&& 0x0000FF⟩
        kind)

/-- `parse_message` from `parser.rs`: inside `nom::bits::bits`, peek
the 5-bit downlink format, run
`alt((parse_mode_s_message, parse_adsb_message, parse_unknown))`, then
consume the trailing 24-bit parity field (currently unchecked, per the
`TODO` in the source).  Leaving bit level, nom drops a partially
consumed byte from the returned remainder
(`offset / 8 + if offset % 8 == 0 then 0 else 1` bytes of the final
slice). -/
def parse_message (data : List Byte) : Except PError (Message × List Byte) :=
  match peekBitsN 5 (data, 0) with
  | .error e => .error e
  | .ok (s1, downlink_format) =>
    match orElse2 (parse_mode_s_message s1)
        (orElse2 (parse_adsb_message s1) (parse_unknown s1)) with
    | .error e => .error e
    | .ok (s2, kind) =>
      match takeBitsN 24 s2 with
      | .error e => .error e
      | .ok (s3, _) =>
        .ok (⟨downlink_format, kind⟩,
             s3.1.drop (s3.2 / 8 + if s3.2 % 8 = 0 then 0 else 1))

/-- `parse_binary` from `parser.rs`: run `parse_message` and return the
message together with the remaining unparsed bytes. -/
def parse_binary (data : List Byte) : Except PError (Message × List Byte) :=
  match parse_message data with
  | .error e => .error e
  | .ok (message, remaining) => .ok (message, remaining)

/-! ## CPR resolver: `src/cpr.rs`

`f64` is modelled as `ℚ`: every constant of `cpr.rs` is a short decimal
literal, taken as the exact rational it denotes; `f64::floor` is `⌊·⌋`
and the Rust `%` on floats (remainder with the sign of the dividend,
i.e. via truncated division) is `fRem` below. -/

/-- `NZ` from `cpr.rs`. -/
def NZ : ℚ := 15

/-- `D_LAT_EVEN = 360.0 / (4.0 * NZ)` from `cpr.rs`. -/
def D_LAT_EVEN : ℚ := 360 / (4 * NZ)

/-- `D_LAT_ODD = 360.0 / (4.0 * NZ - 1.0)` from `cpr.rs`. -/
def D_LAT_ODD : ℚ := 360 / (4 * NZ - 1)

/-- `CPR_MAX` from `cpr.rs`. -/
def CPR_MAX : ℚ := 131072

/-- Truncation toward zero of a rational (the rounding of Rust's float
`%` and of `as`-casts). -/
def qtrunc (q : ℚ) : ℤ :=
  if q < 0 then -⌊-q⌋ else ⌊q⌋

/-- The Rust `%` operator on `f64`: remainder with the sign of the
dividend, `a - b * trunc(a / b)`. -/
def fRem (a b : ℚ) : ℚ :=
  a - b * (qtrunc (a / b) : ℚ)

/-- The breakpoint ladder of `cpr_nl` in `cpr.rs` applied to the
absolute latitude: the source tests the latitude against 58 increasing
breakpoints and early-returns 59 down to 2, returning 1 past the last
one (the two-level grouping of the tests in the source — at
29.91135686, 44.19454951 and 59.95459277 — is a lookup-speed device;
the guard/return pairs below are exactly the source's, in source
order). -/
def nlLadder (lat : ℚ) : ℕ :=
  if lat < 10.47047130 then 59
  else if lat < 14.82817437 then 58
  else if lat < 18.18626357 then 57
  else if lat < 21.02939493 then 56
  else if lat < 23.54504487 then 55
  else if lat < 25.82924707 then 54
  else if lat < 27.93898710 then 53
  else if lat < 29.91135686 then 52
  else if lat < 31.77209708 then 51
  else if lat < 33.53993436 then 50
  else if lat < 35.22899598 then 49
  else if lat < 36.85025108 then 48
  else if lat < 38.41241892 then 47
  else if lat < 39.92256684 then 46
  else if lat < 41.38651832 then 45
  else if lat < 42.80914012 then 44
  else if lat < 44.19454951 then 43
  else if lat < 45.54626723 then 42
  else if lat < 46.86733252 then 41
  else if lat < 48.16039128 then 40
  else if lat < 49.42776439 then 39
  else if lat < 50.67150166 then 38
  else if lat < 51.89342469 then 37
  else if lat < 53.09516153 then 36
  else if lat < 54.27817472 then 35
  else if lat < 55.44378444 then 34
  else if lat < 56.59318756 then 33
  else if lat < 57.72747354 then 32
  else if lat < 58.84763776 then 31
  else if lat < 59.95459277 then 30
  else if lat < 61.04917774 then 29
  else if lat < 62.13216659 then 28
  else if lat < 63.20427479 then 27
  else if lat < 64.26616523 then 26
  else if lat < 65.31845310 then 25
  else if lat < 66.36171008 then 24
  else if lat < 67.39646774 then 23
  else if lat < 68.42322022 then 22
  else if lat < 69.44242631 then 21
  else if lat < 70.45451075 then 20
  else if lat < 71.45986473 then 19
  else if lat < 72.45884545 then 18
  else if lat < 73.45177442 then 17
  else if lat < 74.43893416 then 16
  else if lat < 75.42056257 then 15
  else if lat < 76.39684391 then 14
  else if lat < 77.36789461 then 13
  else if lat < 78.33374083 then 12
  else if lat < 79.29428225 then 11
  else if lat < 80.24923213 then 10
  else if lat < 81.19801349 then 9
  else if lat < 82.13956981 then 8
  else if lat < 83.07199445 then 7
  else if lat < 83.99173563 then 6
  else if lat < 84.89166191 then 5
  else if lat < 85.75541621 then 4
  else if lat < 86.53536998 then 3
  else if lat < 87.00000000 then 2
  else 1

/-- `cpr_nl` from `cpr.rs`: the table is symmetric about the equator,
so a negative latitude is first negated, then looked up in the
breakpoint ladder. -/
def cpr_nl (lat : ℚ) : ℕ :=
  nlLadder (if lat < 0 then -lat else lat)

/-- `get_lat_lon` from `cpr.rs`.  `cpr_nl` returns a `u64`; the
subtractions `cpr_nl(lat) - p` and `cpr_nl(lat) - 1` are `u64`
subtractions on values `>= 1` with `p <= 1`, embedded as truncated `ℕ`
subtraction (never actually truncating). -/
def get_lat_lon (lat cpr_lon_even cpr_lon_odd : ℚ) (parity : Parity) :
    ℚ × ℚ :=
  let pc : ℕ × ℚ :=
    if parity = Parity.even then (0, cpr_lon_even) else (1, cpr_lon_odd)
  let ni : ℚ := (max (cpr_nl lat - pc.1) 1 : ℕ)
  let m : ℚ :=
    (⌊cpr_lon_even * ((cpr_nl lat - 1 : ℕ) : ℚ)
      - cpr_lon_odd * ((cpr_nl lat : ℕ) : ℚ) + 0.5⌋ : ℤ)
  let lon := (360 / ni) * (fRem m ni + pc.2)
  let lon := if lon ≥ 180 then lon - 360 else lon
  (lat, lon)

/-- `get_position` from `cpr.rs`: requires one even and one odd frame
(in either order, the second component being the latest frame);
returns `none` when both frames share parity. -/
def get_position (cpr_frames : CPRFrame × CPRFrame) : Option Position :=
  let latest_frame := cpr_frames.2
  let even_odd : Option (CPRFrame × CPRFrame) :=
    match cpr_frames.1.parity, cpr_frames.2.parity with
    | Parity.even, Parity.odd => some (cpr_frames.1, cpr_frames.2)
    | Parity.odd, Parity.even => some (cpr_frames.2, cpr_frames.1)
    | _, _ => none
  match even_odd with
  | none => none
  | some (even_frame, odd_frame) =>
    let cpr_lat_even := even_frame.position.latitude / CPR_MAX
    let cpr_lon_even := even_frame.position.longitude / CPR_MAX
    let cpr_lat_odd := odd_frame.position.latitude / CPR_MAX
    let cpr_lon_odd := odd_frame.position.longitude / CPR_MAX
    let j : ℚ := (⌊59 * cpr_lat_even - 60 * cpr_lat_odd + 0.5⌋ : ℤ)
    let lat_even := D_LAT_EVEN * (fRem j 60 + cpr_lat_even)
    let lat_odd := D_LAT_ODD * (fRem j 59 + cpr_lat_odd)
    let lat_even := if lat_even ≥ 270 then lat_even - 360 else lat_even
    let lat_odd := if lat_odd ≥ 270 then lat_odd - 360 else lat_odd
    let lat := if latest_frame = even_frame then lat_even else lat_odd
    let ll := get_lat_lon lat cpr_lon_even cpr_lon_odd latest_frame.parity
    some ⟨ll.1, ll.2⟩

/-! ## Verification helpers (not part of the source; used only to state
and prove properties of the definitions above) -/

/-- A guard/return ladder as a recursive function: testing `x` against
a list of breakpoints in order, returning `length + 1` of the remaining
ladder at the first breakpoint exceeding `x` (so the full 58-breakpoint
ladder starts at 59) and 1 when every breakpoint is passed. -/
def nlChain : List ℚ → ℚ → ℕ
  | [], _ => 1
  | c :: cs, x => if x < c then cs.length + 2 else nlChain cs x

/-- The 58 breakpoints of `nlLadder`, in source order. -/
def nlBreakpoints : List ℚ :=
  [10.47047130, 14.82817437, 18.18626357, 21.02939493, 23.54504487,
   25.82924707, 27.93898710, 29.91135686, 31.77209708, 33.53993436,
   35.22899598, 36.85025108, 38.41241892, 39.92256684, 41.38651832,
   42.80914012, 44.19454951, 45.54626723, 46.86733252, 48.16039128,
   49.42776439, 50.67150166, 51.89342469, 53.09516153, 54.27817472,
   55.44378444, 56.59318756, 57.72747354, 58.84763776, 59.95459277,
   61.04917774, 62.13216659, 63.20427479, 64.26616523, 65.31845310,
   66.36171008, 67.39646774, 68.42322022, 69.44242631, 70.45451075,
   71.45986473, 72.45884545, 73.45177442, 74.43893416, 75.42056257,
   76.39684391, 77.36789461, 78.33374083, 79.29428225, 80.24923213,
   81.19801349, 82.13956981, 83.07199445, 83.99173563, 84.89166191,
   85.75541621, 86.53536998, 87.00000000]

/-- An accumulator for chains of
`if f &&& mask != 0 { h |= bits }` steps, as a recursive function over
the list of `(mask, bits)` pairs: `decode_id_13_field` is definitionally
`orAccum f <its table> 0`. -/
def orAccum (f : ℕ) : List (ℕ × ℕ) → ℕ → ℕ
  | [], h => h
  | mc :: t, h => orAccum f t (if f &&& mc.1 ≠ 0 then h ||| mc.2 else h)

/-- The input/output bit-position pairs realised by
`decode_id_13_field` (input bit, output bit), for the 12 input bits it
keeps. -/
def gillhamBitMap : List (ℕ × ℕ) :=
  [(12, 4), (11, 12), (10, 5), (9, 13), (8, 6), (7, 14),
   (5, 8), (4, 0), (3, 9), (2, 1), (1, 10), (0, 2)]

/-! ## General lemmas about the bit reader -/

theorem bitAt_le_one (bs : List Byte) (i : ℕ) : bitAt bs i ≤ 1 :=
  Nat.and_le_right

theorem readBits_lt (bs : List Byte) (off : ℕ) : ∀ n, readBits bs off n < 2 ^ n := by
  intro n
  induction n with
  | zero => simp [readBits]
  | succ n ih =>
    have h := bitAt_le_one bs (off + n)
    simp only [readBits, pow_succ]
    omega

theorem takeBitsN_eq_ok (n : ℕ) (bs : List Byte) (off : ℕ) (hn : n ≠ 0)
    (h : ¬ bs.length * 8 < n + off) :
    takeBitsN n (bs, off) =
      .ok ((bs.drop ((n + off) / 8), (n + off) % 8), readBits bs off n) := by
  simp only [takeBitsN]
  rw [if_neg hn, if_neg h]

theorem takeBitsN_eq_eof (n : ℕ) (bs : List Byte) (off : ℕ) (hn : n ≠ 0)
    (h : bs.length * 8 < n + off) :
    takeBitsN n (bs, off) = .error .eof := by
  simp only [takeBitsN]
  rw [if_neg hn, if_pos h]

theorem takeBitsN_ok_inv {n : ℕ} {bs : List Byte} {off : ℕ} {s2 : BitState}
    {v : ℕ} (hn : n ≠ 0) (h : takeBitsN n (bs, off) = .ok (s2, v)) :
    s2 = (bs.drop ((n + off) / 8), (n + off) % 8) ∧ v = readBits bs off n := by
  simp only [takeBitsN, if_neg hn] at h
  by_cases hlen : bs.length * 8 < n + off
  · rw [if_pos hlen] at h
    exact absurd h (by simp)
  · rw [if_neg hlen] at h
    simp only [Except.ok.injEq, Prod.mk.injEq] at h
    exact ⟨h.1.symm, h.2.symm⟩

theorem peekBitsN_of_take {n : ℕ} {s s2 : BitState} {v : ℕ}
    (h : takeBitsN n s = .ok (s2, v)) : peekBitsN n s = .ok (s, v) := by
  simp only [peekBitsN, h]

theorem peekBitsN_ok_state {n : ℕ} {s s2 : BitState} {v : ℕ}
    (h : peekBitsN n s = .ok (s2, v)) : s2 = s := by
  simp only [peekBitsN] at h
  rcases h2 : takeBitsN n s with e | p
  · rw [h2] at h
    exact absurd h (by simp)
  · rw [h2] at h
    obtain ⟨s3, v3⟩ := p
    simp only [Except.ok.injEq, Prod.mk.injEq] at h
    exact h.1.symm

theorem bitAt_drop (bs : List Byte) (k i : ℕ) :
    bitAt (bs.drop k) i = bitAt bs (8 * k + i) := by
  unfold bitAt
  have h1 : (bs.drop k).getD (i / 8) 0 = bs.getD (k + i / 8) 0 := by
    rw [List.getD_eq_getElem?_getD, List.getD_eq_getElem?_getD,
      List.getElem?_drop]
  have h2 : (8 * k + i) / 8 = k + i / 8 := by omega
  have h3 : (8 * k + i) % 8 = i % 8 := by omega
  rw [h1, h2, h3]

theorem readBits_drop (bs : List Byte) (k off : ℕ) :
    ∀ n, readBits (bs.drop k) off n = readBits bs (8 * k + off) n := by
  intro n
  induction n with
  | zero => rfl
  | succ n ih =>
    simp only [readBits, ih, bitAt_drop]
    have : 8 * k + (off + n) = 8 * k + off + n := by omega
    rw [this]

/-! ## C2: decoding the DF5 reference frame -/

/-- C2: decoding the 7-byte frame `28 00 08 08 F4 60 E0` with
`parse_binary` succeeds with downlink format 5 and a Mode-S message
whose ICAO address is `ICAOAddress(0xA4, 0x04, 0x42)` — which equals
the CRC-24 remainder of the full 7-byte frame — and whose
surveillance-identity squawk is `Squawk(0x12, 0x00)`, the code 1200. -/
theorem c2_df5_identity_recovery :
    parse_binary [0x28, 0x00, 0x08, 0x08, 0xF4, 0x60, 0xE0] =
      .ok (⟨5, .modeSMessage ⟨0xA4, 0x04, 0x42⟩
             (.surveillanceIdentity ⟨0x12, 0x00⟩)⟩,
           [0x08, 0xF4, 0x60, 0xE0]) ∧
    get_crc_remainder [0x28, 0x00, 0x08, 0x08, 0xF4, 0x60, 0xE0] =
      .ok 0xA40442 ∧
    Squawk.from_u16 0x1200 = ⟨0x12, 0x00⟩ := by
  refine ⟨by decide, by decide, by decide⟩

/-! ## C8: the CRC-24 engine fails exactly on short input -/

theorem crc_fold_lt (l : List Byte) :
    ∀ acc : ℕ, acc < 2 ^ 24 →
      l.foldl (fun rem byte =>
        ((rem <<< 8) ^^^ crcTableEntry (byte.val ^^^ ((rem &&& 0xff0000) >>> 16)))
          &&& 0xffffff) acc < 2 ^ 24 := by
  induction l with
  | nil => intro acc h; simpa using h
  | cons b t ih =>
    intro acc h
    simp only [List.foldl_cons]
    refine ih _ ?_
    have := Nat.and_le_right
      (n := (acc <<< 8) ^^^ crcTableEntry (b.val ^^^ ((acc &&& 0xff0000) >>> 16)))
      (m := 0xffffff)
    omega

/-- C8: `get_crc_remainder` fails with `InputTooShort` exactly when
fewer than 3 bytes are supplied; on 3 or more bytes it returns a
remainder strictly below `2^24`. -/
theorem c8_crc_short_input (bs : List Byte) :
    (get_crc_remainder bs = .error .inputTooShort ↔ bs.length < 3) ∧
    (3 ≤ bs.length → ∃ r, get_crc_remainder bs = .ok r ∧ r < 2 ^ 24) := by
  constructor
  · constructor
    · intro h
      by_contra hlen
      unfold get_crc_remainder at h
      rw [if_neg hlen] at h
      exact absurd h (by simp)
    · intro h
      unfold get_crc_remainder
      rw [if_pos h]
  · intro h3
    unfold get_crc_remainder
    rw [if_neg (by omega)]
    refine ⟨_, rfl, ?_⟩
    have hfold := crc_fold_lt (bs.take (bs.length - 3)) 0 (by norm_num)
    have hb1 : ((bs.getD (bs.length - 3) 0).val <<< 16) < 2 ^ 24 := by
      have := (bs.getD (bs.length - 3) 0).isLt
      simp only [Nat.shiftLeft_eq]
      omega
    have hb2 : ((bs.getD (bs.length - 2) 0).val <<< 8) < 2 ^ 24 := by
      have := (bs.getD (bs.length - 2) 0).isLt
      simp only [Nat.shiftLeft_eq]
      omega
    have hb3 : (bs.getD (bs.length - 1) 0).val < 2 ^ 24 := by
      have := (bs.getD (bs.length - 1) 0).isLt
      omega
    exact Nat.xor_lt_two_pow (Nat.xor_lt_two_pow (Nat.xor_lt_two_pow hfold hb1) hb2) hb3

/-- C8 witness: the engine on the 2-byte input `60 98` (the Rust test)
and on the 14-byte reference frame. -/
theorem c8_crc_short_input_witness :
    (get_crc_remainder [0x60, 0x98] = .error .inputTooShort ↔
      ([0x60, 0x98] : List Byte).length < 3) ∧
    (∃ r, get_crc_remainder
        [0x8D, 0x48, 0x40, 0xD6, 0x20, 0x2C, 0xC3, 0x71, 0xC3, 0x2C, 0xE0, 0x57, 0x60, 0x98] =
        .ok r ∧ r < 2 ^ 24) :=
  ⟨(c8_crc_short_input [0x60, 0x98]).1,
   (c8_crc_short_input
     [0x8D, 0x48, 0x40, 0xD6, 0x20, 0x2C, 0xC3, 0x71, 0xC3, 0x2C, 0xE0, 0x57, 0x60, 0x98]).2
     (by decide)⟩

/-! ## C6: CPR resolution requires opposite parity -/

/-- C6: `get_position` returns `none` exactly when the two frames have
the same parity, whatever their raw coordinate values; with opposite
parity (in either order) it always returns a position. -/
theorem c6_get_position_parity (f1 f2 : CPRFrame) :
    (get_position (f1, f2) = none ↔ f1.parity = f2.parity) ∧
    (f1.parity ≠ f2.parity → ∃ p, get_position (f1, f2) = some p) := by
  obtain ⟨pos1, par1⟩ := f1
  obtain ⟨pos2, par2⟩ := f2
  cases par1 <;> cases par2 <;> simp [get_position]

/-- C6 witness: the even/odd pair of the Rust reference test resolves
to a position, and swapping to equal parity yields `none`. -/
theorem c6_get_position_parity_witness :
    (∃ p, get_position (⟨⟨74158, 50194⟩, .odd⟩, ⟨⟨93000, 51372⟩, .even⟩) = some p) ∧
    (get_position (⟨⟨74158, 50194⟩, .odd⟩, ⟨⟨93000, 51372⟩, .odd⟩) = none ↔
      Parity.odd = Parity.odd) :=
  ⟨(c6_get_position_parity ⟨⟨74158, 50194⟩, .odd⟩ ⟨⟨93000, 51372⟩, .even⟩).2
     (by decide),
   (c6_get_position_parity ⟨⟨74158, 50194⟩, .odd⟩ ⟨⟨93000, 51372⟩, .odd⟩).1⟩

/-! ## C7: shape of the NL longitude-zone table -/

theorem nlChain_one_le (cs : List ℚ) (x : ℚ) : 1 ≤ nlChain cs x := by
  induction cs with
  | nil => simp [nlChain]
  | cons c t ih =>
    simp only [nlChain]
    split
    · omega
    · exact ih

theorem nlChain_le (cs : List ℚ) (x : ℚ) : nlChain cs x ≤ cs.length + 1 := by
  induction cs with
  | nil => simp [nlChain]
  | cons c t ih =>
    simp only [nlChain, List.length_cons]
    split
    · omega
    · omega

theorem nlChain_anti (cs : List ℚ) (a b : ℚ) (hab : a ≤ b) :
    nlChain cs b ≤ nlChain cs a := by
  induction cs with
  | nil => exact le_refl _
  | cons c t ih =>
    simp only [nlChain]
    by_cases hb : b < c
    · rw [if_pos hb, if_pos (lt_of_le_of_lt hab hb)]
    · rw [if_neg hb]
      by_cases ha : a < c
      · rw [if_pos ha]
        have := nlChain_le t b
        omega
      · rw [if_neg ha]
        exact ih

theorem nlChain_eq_one (cs : List ℚ) (x : ℚ) (h : ∀ c ∈ cs, c ≤ x) :
    nlChain cs x = 1 := by
  induction cs with
  | nil => rfl
  | cons c t ih =>
    simp only [nlChain]
    rw [if_neg (not_lt.mpr (h c (by simp)))]
    exact ih (fun d hd => h d (by simp [hd]))

theorem nlLadder_eq_chain (x : ℚ) : nlLadder x = nlChain nlBreakpoints x := by
  rfl

theorem neg_wrapper_eq_abs (x : ℚ) : (if x < 0 then -x else x) = |x| := by
  rcases lt_or_le x 0 with h | h
  · rw [if_pos h, abs_of_neg h]
  · rw [if_neg (not_lt.mpr h), abs_of_nonneg h]

theorem cpr_nl_eq_chain (x : ℚ) : cpr_nl x = nlChain nlBreakpoints |x| := by
  unfold cpr_nl
  rw [neg_wrapper_eq_abs, nlLadder_eq_chain]

/-- C7: `cpr_nl` is symmetric about the equator, monotonically
non-increasing in the absolute latitude, always in `[1, 59]`, equal to
59 below the first breakpoint and equal to 1 at or above 87 degrees. -/
theorem c7_cpr_nl_shape :
    (∀ lat : ℚ, cpr_nl (-lat) = cpr_nl lat) ∧
    (∀ a b : ℚ, |a| ≤ |b| → cpr_nl b ≤ cpr_nl a) ∧
    (∀ lat : ℚ, 1 ≤ cpr_nl lat ∧ cpr_nl lat ≤ 59) ∧
    (∀ lat : ℚ, |lat| < 10.47047130 → cpr_nl lat = 59) ∧
    (∀ lat : ℚ, 87 ≤ |lat| → cpr_nl lat = 1) := by
  have hlen : nlBreakpoints.length = 58 := by rfl
  refine ⟨?_, ?_, ?_, ?_, ?_⟩
  · intro lat
    rw [cpr_nl_eq_chain, cpr_nl_eq_chain, abs_neg]
  · intro a b h
    rw [cpr_nl_eq_chain, cpr_nl_eq_chain]
    exact nlChain_anti _ _ _ h
  · intro lat
    rw [cpr_nl_eq_chain]
    refine ⟨nlChain_one_le _ _, ?_⟩
    have := nlChain_le nlBreakpoints |lat|
    omega
  · intro lat h
    unfold cpr_nl
    rw [neg_wrapper_eq_abs]
    unfold nlLadder
    rw [if_pos h]
  · intro lat h
    rw [cpr_nl_eq_chain]
    refine nlChain_eq_one _ _ (fun c hc => le_trans ?_ h)
    fin_cases hc <;> norm_num

/-- C7 witness: the shape properties applied at concrete latitudes. -/
theorem c7_cpr_nl_shape_witness :
    cpr_nl (20 : ℚ) ≤ cpr_nl (10 : ℚ) ∧ cpr_nl (5 : ℚ) = 59 ∧
      cpr_nl (89.9 : ℚ) = 1 :=
  ⟨c7_cpr_nl_shape.2.1 10 20 (by rw [abs_of_nonneg, abs_of_nonneg] <;> norm_num),
   c7_cpr_nl_shape.2.2.2.1 5 (by rw [abs_of_nonneg] <;> norm_num),
   c7_cpr_nl_shape.2.2.2.2 89.9 (by rw [abs_of_nonneg] <;> norm_num)⟩

/-! ## C9: the Gillham squawk bit rearrangement -/

/-- C9 counterexample: `decode_id_13_field` is NOT a 1-to-1 permutation
of all 13 input bit positions: the two 13-bit inputs `0x0040` and `0`
differ exactly in bit 6 (the X/M bit, commented out in the source) yet
produce the same output, so bit 6 maps to no output bit and inputs
differing only there collide. -/
theorem c9_gillham_counterexample :
    decode_id_13_field 0x0040 = decode_id_13_field 0 ∧
    (0x0040 : ℕ) ≠ 0 ∧ (0x0040 : ℕ) < 2 ^ 13 := by
  decide

theorem pow_two_testBit (n m : ℕ) : (2 ^ n).testBit m = decide (n = m) := by
  by_cases h : n = m
  · subst h; simp
  · simp [Nat.testBit_two_pow_of_ne h, h]

theorem decide_and_pow (f i : ℕ) : decide (f &&& 2 ^ i ≠ 0) = f.testBit i := by
  rcases h : f.testBit i <;> rw [Nat.and_two_pow, h] <;> simp

theorem and_pow_ne_zero_iff (f i : ℕ) : f &&& 2 ^ i ≠ 0 ↔ f.testBit i = true := by
  rcases h : f.testBit i <;> rw [Nat.and_two_pow, h] <;> simp

theorem decode_eq_orAccum (f : ℕ) :
    decode_id_13_field f =
      orAccum f (gillhamBitMap.map fun p => (2 ^ p.1, 2 ^ p.2)) 0 := by
  rfl

theorem orAccum_testBit (f : ℕ) (t : List (ℕ × ℕ)) (j : ℕ) :
    ∀ h : ℕ, (orAccum f (t.map fun p => (2 ^ p.1, 2 ^ p.2)) h).testBit j =
      (h.testBit j || t.any fun p => f.testBit p.1 && decide (p.2 = j)) := by
  induction t with
  | nil => intro h; simp [orAccum]
  | cons p t ih =>
    intro h
    simp only [List.map_cons, orAccum, List.any_cons]
    rw [ih]
    rcases hb : f.testBit p.1 with _ | _
    · rw [if_neg (fun hc => by simpa [hb] using (and_pow_ne_zero_iff f p.1).mp hc)]
      simp [hb]
    · rw [if_pos ((and_pow_ne_zero_iff f p.1).mpr hb)]
      simp [hb, Nat.testBit_or, pow_two_testBit, Bool.or_assoc]

theorem orAccum_congr (f g : ℕ) (t : List (ℕ × ℕ)) :
    ∀ h : ℕ, (∀ p ∈ t, f.testBit p.1 = g.testBit p.1) →
      orAccum f (t.map fun p => (2 ^ p.1, 2 ^ p.2)) h =
        orAccum g (t.map fun p => (2 ^ p.1, 2 ^ p.2)) h := by
  induction t with
  | nil => intro h _; rfl
  | cons p t ih =>
    intro h hc
    simp only [List.map_cons, orAccum]
    have hfg : (f &&& 2 ^ p.1 ≠ 0) ↔ (g &&& 2 ^ p.1 ≠ 0) := by
      rw [and_pow_ne_zero_iff, and_pow_ne_zero_iff, hc p (by simp)]
    have hrest : ∀ h2 : ℕ,
        orAccum f (t.map fun p => (2 ^ p.1, 2 ^ p.2)) h2 =
          orAccum g (t.map fun p => (2 ^ p.1, 2 ^ p.2)) h2 :=
      fun h2 => ih h2 (fun q hq => hc q (List.mem_cons_of_mem _ hq))
    by_cases hf : f &&& 2 ^ p.1 ≠ 0
    · rw [if_pos hf, if_pos (hfg.mp hf)]; exact hrest _
    · rw [if_neg hf, if_neg (fun hg => hf (hfg.mpr hg))]; exact hrest _

theorem decode_testBit_map (f : ℕ) :
    ∀ p ∈ gillhamBitMap, (decode_id_13_field f).testBit p.2 = f.testBit p.1 := by
  intro p hp
  rw [decode_eq_orAccum, orAccum_testBit]
  fin_cases hp <;> simp [gillhamBitMap]

theorem decode_mask_invariant (f : ℕ) :
    decode_id_13_field f = decode_id_13_field (f &&& 0x1FBF) := by
  have t0 : Nat.testBit 0x1FBF 0 = true := by decide
  have t1 : Nat.testBit 0x1FBF 1 = true := by decide
  have t2 : Nat.testBit 0x1FBF 2 = true := by decide
  have t3 : Nat.testBit 0x1FBF 3 = true := by decide
  have t4 : Nat.testBit 0x1FBF 4 = true := by decide
  have t5 : Nat.testBit 0x1FBF 5 = true := by decide
  have t7 : Nat.testBit 0x1FBF 7 = true := by decide
  have t8 : Nat.testBit 0x1FBF 8 = true := by decide
  have t9 : Nat.testBit 0x1FBF 9 = true := by decide
  have t10 : Nat.testBit 0x1FBF 10 = true := by decide
  have t11 : Nat.testBit 0x1FBF 11 = true := by decide
  have t12 : Nat.testBit 0x1FBF 12 = true := by decide
  rw [decode_eq_orAccum, decode_eq_orAccum]
  refine orAccum_congr f (f &&& 0x1FBF) gillhamBitMap 0 (fun p hp => ?_)
  fin_cases hp <;>
    simp [Nat.testBit_and, t0, t1, t2, t3, t4, t5, t7, t8, t9, t10, t11, t12]

/-- C9 (amended): `decode_id_13_field` is a 1-to-1 bit rearrangement of
the 12 input bit positions other than bit 6: the output depends only on
the input masked by `0x1FBF` (bit 6 dropped), each kept input bit `i`
appears as output bit `σ(i)` per the static table `gillhamBitMap`
(12 pairwise-distinct output positions), and two 13-bit inputs collide
exactly when they agree outside bit 6. -/
theorem c9_gillham_permutation :
    (∀ f, f < 2 ^ 13 → decode_id_13_field f = decode_id_13_field (f &&& 0x1FBF)) ∧
    (∀ f, f < 2 ^ 13 → ∀ p ∈ gillhamBitMap,
      (decode_id_13_field f).testBit p.2 = f.testBit p.1) ∧
    (∀ a b, a < 2 ^ 13 → b < 2 ^ 13 →
      (decode_id_13_field a = decode_id_13_field b ↔ a &&& 0x1FBF = b &&& 0x1FBF)) := by
  refine ⟨fun f _ => decode_mask_invariant f, fun f _ => decode_testBit_map f, ?_⟩
  intro a b _ _
  constructor
  · intro h
    have step : ∀ i σ : ℕ, (i, σ) ∈ gillhamBitMap → a.testBit i = b.testBit i := by
      intro i σ hmem
      have h1 := decode_testBit_map a (i, σ) hmem
      have h2 := decode_testBit_map b (i, σ) hmem
      rw [← h1, h, h2]
    apply Nat.eq_of_testBit_eq
    intro j
    rw [Nat.testBit_and, Nat.testBit_and]
    by_cases hj : j < 13
    · interval_cases j
      · rw [step 0 2 (by decide)]
      · rw [step 1 10 (by decide)]
      · rw [step 2 1 (by decide)]
      · rw [step 3 9 (by decide)]
      · rw [step 4 0 (by decide)]
      · rw [step 5 8 (by decide)]
      · rw [(by decide : Nat.testBit 0x1FBF 6 = false)]
        simp
      · rw [step 7 14 (by decide)]
      · rw [step 8 6 (by decide)]
      · rw [step 9 13 (by decide)]
      · rw [step 10 5 (by decide)]
      · rw [step 11 12 (by decide)]
      · rw [step 12 4 (by decide)]
    · have h13 : (0x1FBF : ℕ) < 2 ^ 13 := by norm_num
      have hpow : (2 : ℕ) ^ 13 ≤ 2 ^ j :=
        Nat.pow_le_pow_right (by norm_num) (by omega)
      rw [Nat.testBit_lt_two_pow (lt_of_lt_of_le h13 hpow)]
      simp
  · intro h
    rw [decode_mask_invariant a, decode_mask_invariant b, h]

/-- C9 witness: the amended properties applied at the identity code of
the reference DF5 frame, `0x0808`. -/
theorem c9_gillham_permutation_witness :
    decode_id_13_field 0x0808 = decode_id_13_field (0x0808 &&& 0x1FBF) ∧
    (decode_id_13_field 0x0808).testBit 12 = (0x0808 : ℕ).testBit 11 ∧
    (decode_id_13_field 0x0808 = decode_id_13_field 0x0888 ↔
      0x0808 &&& 0x1FBF = 0x0888 &&& 0x1FBF) :=
  ⟨c9_gillham_permutation.1 0x0808 (by decide),
   c9_gillham_permutation.2.1 0x0808 (by decide) (11, 12) (by decide),
   c9_gillham_permutation.2.2 0x0808 0x0888 (by decide) (by decide)⟩

/-! ## C5: the altitude decoder -/

/-- C5: whenever the three bit fields `l` (7 bits), `q` (1 bit) and `r`
(4 bits) are successfully extracted, the decoded altitude is
`(rotate_left_16(l, 4) + r) * (25 if q == 1 else 100) - 1000`, the
multiply and subtract being overflow-checked: a product above `0xFFFF`
or a subtraction going below zero fails with the
`TooLarge`/ArithmeticOverflow error instead of wrapping.  (The `u16`
sum `rotate_left_16(l, 4) + r` itself never wraps since `l < 2^7`.) -/
theorem c5_parse_altitude (s s1 s2 s3 : BitState) (l qb r : ℕ)
    (h1 : takeBitsN 7 s = .ok (s1, l))
    (h2 : takeBitsN 1 s1 = .ok (s2, qb))
    (h3 : takeBitsN 4 s2 = .ok (s3, r)) :
    parse_altitude s =
      if (rotateLeft16 l 4 + r) * (if qb = 0 then 100 else 25) ≤ 0xFFFF ∧
          1000 ≤ (rotateLeft16 l 4 + r) * (if qb = 0 then 100 else 25)
      then .ok (s3, (rotateLeft16 l 4 + r) * (if qb = 0 then 100 else 25) - 1000)
      else .error .tooLarge := by
  obtain ⟨bs, off⟩ := s
  obtain ⟨bs1, off1⟩ := s1
  have hl : l < 2 ^ 7 := by
    obtain ⟨-, hv⟩ := takeBitsN_ok_inv (by norm_num) h1
    rw [hv]; exact readBits_lt bs off 7
  have hqb : qb < 2 ^ 1 := by
    obtain ⟨-, hv⟩ := takeBitsN_ok_inv (by norm_num) h2
    rw [hv]; exact readBits_lt bs1 off1 1
  have hnw : ∀ a < 2 ^ 7, ∀ b < 2 ^ 4, rotateLeft16 a 4 + b < 2 ^ 16 := by decide
  have hr : r < 2 ^ 4 := by
    obtain ⟨bs2, off2⟩ := s2
    obtain ⟨-, hv⟩ := takeBitsN_ok_inv (by norm_num) h3
    rw [hv]; exact readBits_lt bs2 off2 4
  have hmod : (rotateLeft16 l 4 + r) % 2 ^ 16 = rotateLeft16 l 4 + r :=
    Nat.mod_eq_of_lt (hnw l hl r hr)
  interval_cases qb
  · have hq : tagBitsN 1 0 ((bs1, off1) : BitState) = .ok (s2) := by
      simp [tagBitsN, h2]
    simp only [parse_altitude, h1, hq, orElse2, h3, hmod, if_pos rfl]
    norm_num
    split_ifs <;> first | rfl | omega
  · have hq0 : tagBitsN 1 0 ((bs1, off1) : BitState) = .error .tagMismatch := by
      simp [tagBitsN, h2]
    have hq1 : tagBitsN 1 1 ((bs1, off1) : BitState) = .ok (s2) := by
      simp [tagBitsN, h2]
    simp only [parse_altitude, h1, hq0, hq1, orElse2, h3, hmod]
    norm_num
    split_ifs <;> first | rfl | omega

/-- C5 witness: the altitude decoder on the concrete 16-bit input
`0x0C 0x90` (`l = 6`, `q`-bit 0, `r = 9`): `(96 + 9) * 100 - 1000`. -/
theorem c5_parse_altitude_witness :
    parse_altitude (([0x0C, 0x90] : List Byte), 0) =
      .ok ((([0x90] : List Byte), 4), 9500) :=
  (c5_parse_altitude (([0x0C, 0x90] : List Byte), 0)
    (([0x0C, 0x90] : List Byte), 7) (([0x90] : List Byte), 0)
    (([0x90] : List Byte), 4) 6 0 9
    (by decide) (by decide) (by decide)).trans (by decide)

/-! ## C4: frames with an unsupported downlink format -/

/-- C4 counterexample: it is NOT the case that every byte slice whose
first 5 bits encode a downlink format other than 5, 17 and 18 decodes
successfully with `kind = Unknown` consuming only the format field:
the 1-byte slice `00` (downlink format 0) fails with a truncation
error, because the grammar still consumes the trailing 24-bit parity
field; and on the 4-byte slice `00 00 00 00` decoding succeeds but
returns only the last byte as remainder — three whole bytes are
consumed, not 5 bits. -/
theorem c4_unknown_df_counterexample :
    parse_binary [0x00] = .error .eof ∧
    parse_binary [0x00, 0x00, 0x00, 0x00] =
      .ok (⟨0, .unknown⟩, [0x00]) := by
  constructor
  · decide
  · decide

/-- C4 (amended): for every byte slice of length at least 3 whose first
5 bits encode a downlink format other than 5, 17 and 18, decoding
succeeds with `kind = Unknown` and `downlink_format` equal to those 5
bits; the Unknown payload parser itself consumes nothing, but the
top-level trailing 24-bit parity take still consumes 3 bytes, so the
remainder handed back is the input minus its first 3 bytes (slices
shorter than 3 bytes instead fail with a truncation error). -/
theorem c4_unknown_df (bs : List Byte) (hlen : 3 ≤ bs.length)
    (h5 : readBits bs 0 5 ≠ 5) (h17 : readBits bs 0 5 ≠ 17)
    (h18 : readBits bs 0 5 ≠ 18) :
    parse_binary bs = .ok (⟨readBits bs 0 5, .unknown⟩, bs.drop 3) := by
  have ht5 : takeBitsN 5 (bs, 0) = .ok ((bs, 5), readBits bs 0 5) := by
    rw [takeBitsN_eq_ok 5 bs 0 (by norm_num) (by omega)]
    simp
  have hms : parse_mode_s_message (bs, 0) = .error .tagMismatch := by
    have htag : tagBitsN 5 0b00101 (bs, 0) = .error .tagMismatch := by
      simp only [tagBitsN, ht5]
      rw [if_neg h5]
    simp only [parse_mode_s_message, parse_mode_s_message_kind,
      parse_surveillance_identity, htag]
  have htag17 : tagBitsN 5 0b10001 (bs, 0) = .error .tagMismatch := by
    simp only [tagBitsN, ht5]
    rw [if_neg h17]
  have htag18 : tagBitsN 5 0b10010 (bs, 0) = .error .tagMismatch := by
    simp only [tagBitsN, ht5]
    rw [if_neg h18]
  have hadsb : parse_adsb_message (bs, 0) = .error .tagMismatch := by
    simp only [parse_adsb_message, orElse2, htag17, htag18]
  have ht24 : takeBitsN 24 (bs, 0) = .ok ((bs.drop 3, 0), readBits bs 0 24) := by
    rw [takeBitsN_eq_ok 24 bs 0 (by norm_num) (by omega)]
  simp only [parse_binary, parse_message, peekBitsN_of_take ht5, hms, hadsb,
    parse_unknown, orElse2, ht24]
  simp

/-- C4 witness: a 4-byte downlink-format-1 frame decodes to `Unknown`
with its last byte as remainder. -/
theorem c4_unknown_df_witness :
    parse_binary [0x08, 0xAA, 0xBB, 0xCC] =
      .ok (⟨1, .unknown⟩, [0xCC]) :=
  (c4_unknown_df [0x08, 0xAA, 0xBB, 0xCC] (by decide) (by decide)
    (by decide) (by decide)).trans (by decide)

/-! ## C3: DF 17/18 frames with an unsupported type code -/

/-- C3 counterexample: a 14-byte DF17 frame whose payload type code is
5 (outside `[1,4]`, `[9,18]` and `≠ 19`) does NOT fail: the ADS-B
sub-grammar rejects it, but the top-level `alt` then falls back to
`parse_unknown`, so decoding SUCCEEDS with the fallback variant
`kind = Unknown` (and 3 bytes consumed by the trailing parity take). -/
theorem c3_unsupported_tc_counterexample :
    readBits [0x88, 0x00, 0x00, 0x00, 0x28, 0x00, 0x00, 0x00, 0x00, 0x00,
        0x00, 0x00, 0x00, 0x00] 0 5 = 17 ∧
    readBits [0x88, 0x00, 0x00, 0x00, 0x28, 0x00, 0x00, 0x00, 0x00, 0x00,
        0x00, 0x00, 0x00, 0x00] 32 5 = 5 ∧
    parse_binary [0x88, 0x00, 0x00, 0x00, 0x28, 0x00, 0x00, 0x00, 0x00, 0x00,
        0x00, 0x00, 0x00, 0x00] =
      .ok (⟨17, .unknown⟩,
        [0x00, 0x28, 0x00, 0x00, 0x00, 0x00, 0x00, 0x00, 0x00, 0x00, 0x00]) := by
  refine ⟨by decide, by decide, by decide⟩

/-- C3 (amended): for every 14-byte frame whose first 5 bits encode
downlink format 17 or 18 and whose payload type code (the 5 bits after
the 24-bit ICAO address, i.e. bits 32..36) lies outside `[1,4]`,
outside `[9,18]` and is not 19, no ADS-B variant is produced: the
ADS-B sub-grammar fails, and the whole decode falls back to the
top-level `Unknown` kind, succeeding with `downlink_format` preserved
and the usual 3-byte parity consumption — it does not fail with a
typed error as the spec asserts. -/
theorem c3_unsupported_tc (bs : List Byte) (hlen : bs.length = 14)
    (hdf : readBits bs 0 5 = 17 ∨ readBits bs 0 5 = 18)
    (htc1 : ¬ (1 ≤ readBits bs 32 5 ∧ readBits bs 32 5 ≤ 4))
    (htc2 : ¬ (9 ≤ readBits bs 32 5 ∧ readBits bs 32 5 ≤ 18))
    (htc3 : readBits bs 32 5 ≠ 19) :
    parse_binary bs = .ok (⟨readBits bs 0 5, .unknown⟩, bs.drop 3) := by
  have ht5 : takeBitsN 5 (bs, 0) = .ok ((bs, 5), readBits bs 0 5) := by
    rw [takeBitsN_eq_ok 5 bs 0 (by norm_num) (by omega)]
    simp
  have hms : parse_mode_s_message (bs, 0) = .error .tagMismatch := by
    have htag : tagBitsN 5 0b00101 (bs, 0) = .error .tagMismatch := by
      simp only [tagBitsN, ht5]
      rw [if_neg (by omega)]
    simp only [parse_mode_s_message, parse_mode_s_message_kind,
      parse_surveillance_identity, htag]
  have hd1 : (bs.drop 1).length = 13 := by simp [hlen]
  have hd2 : (bs.drop 2).length = 12 := by simp [hlen]
  have hd3 : (bs.drop 3).length = 11 := by simp [hlen]
  have hd4 : (bs.drop 4).length = 10 := by simp [hlen]
  have htagAlt : orElse2 (tagBitsN 5 0b10001 (bs, 0)) (tagBitsN 5 0b10010 (bs, 0)) =
      .ok ((bs, 5) : BitState) := by
    rcases hdf with hd | hd
    · have h17 : tagBitsN 5 0b10001 (bs, 0) = .ok ((bs, 5) : BitState) := by
        simp only [tagBitsN, ht5, hd]
        simp
      simp only [orElse2, h17]
    · have h17 : tagBitsN 5 0b10001 (bs, 0) = .error .tagMismatch := by
        simp only [tagBitsN, ht5, hd]
        rw [if_neg (by omega)]
      have h18 : tagBitsN 5 0b10010 (bs, 0) = .ok ((bs, 5) : BitState) := by
        simp only [tagBitsN, ht5, hd]
        simp
      simp only [orElse2, h17, h18]
  have ht3 : takeBitsN 3 (bs, 5) = .ok ((bs.drop 1, 0), readBits bs 5 3) := by
    rw [takeBitsN_eq_ok 3 bs 5 (by norm_num) (by omega)]
  have hico1 : takeBitsN 8 (bs.drop 1, 0) =
      .ok ((bs.drop 2, 0), readBits (bs.drop 1) 0 8) := by
    rw [takeBitsN_eq_ok 8 (bs.drop 1) 0 (by norm_num) (by omega)]
    simp [List.drop_drop]
  have hico2 : takeBitsN 8 (bs.drop 2, 0) =
      .ok ((bs.drop 3, 0), readBits (bs.drop 2) 0 8) := by
    rw [takeBitsN_eq_ok 8 (bs.drop 2) 0 (by norm_num) (by omega)]
    simp [List.drop_drop]
  have hico3 : takeBitsN 8 (bs.drop 3, 0) =
      .ok ((bs.drop 4, 0), readBits (bs.drop 3) 0 8) := by
    rw [takeBitsN_eq_ok 8 (bs.drop 3) 0 (by norm_num) (by omega)]
    simp [List.drop_drop]
  have hicao : parse_icao_address (bs.drop 1, 0) =
      .ok ((bs.drop 4, 0),
        ⟨readBits (bs.drop 1) 0 8, readBits (bs.drop 2) 0 8,
         readBits (bs.drop 3) 0 8⟩) := by
    simp only [parse_icao_address, hico1, hico2, hico3]
  have ht5p : takeBitsN 5 (bs.drop 4, 0) =
      .ok ((bs.drop 4, 5), readBits bs 32 5) := by
    rw [takeBitsN_eq_ok 5 (bs.drop 4) 0 (by norm_num) (by omega)]
    rw [readBits_drop]
    simp
  have haircraft : parse_aircraft_identification (bs.drop 4, 0) =
      .error .verifyFail := by
    simp only [parse_aircraft_identification, ht5p]
    rw [if_neg htc1]
  have hposition : parse_airborne_position (bs.drop 4, 0) =
      .error .verifyFail := by
    simp only [parse_airborne_position, ht5p]
    rw [if_neg htc2]
  have hvelocity : parse_airborne_velocity (bs.drop 4, 0) =
      .error .verifyFail := by
    simp only [parse_airborne_velocity, ht5p]
    rw [if_neg htc3]
  have hkind : parse_adsb_message_kind (bs.drop 4, 0) = .error .verifyFail := by
    simp only [parse_adsb_message_kind, orElse2, haircraft, hposition, hvelocity]
  have hadsb : parse_adsb_message (bs, 0) = .error .verifyFail := by
    simp only [parse_adsb_message, htagAlt, ht3, hicao,
      peekBitsN_of_take ht5p, hkind]
  have ht24 : takeBitsN 24 (bs, 0) = .ok ((bs.drop 3, 0), readBits bs 0 24) := by
    rw [takeBitsN_eq_ok 24 bs 0 (by norm_num) (by omega)]
  simp only [parse_binary, parse_message, peekBitsN_of_take ht5, hms, hadsb,
    parse_unknown, orElse2, ht24]
  simp

/-- C3 witness: the amended behaviour at the DF18 variant of the
counterexample frame (type code 5). -/
theorem c3_unsupported_tc_witness :
    parse_binary [0x90, 0x00, 0x00, 0x00, 0x28, 0x00, 0x00, 0x00, 0x00, 0x00,
        0x00, 0x00, 0x00, 0x00] =
      .ok (⟨18, .unknown⟩,
        [0x00, 0x28, 0x00, 0x00, 0x00, 0x00, 0x00, 0x00, 0x00, 0x00, 0x00]) :=
  (c3_unsupported_tc
    [0x90, 0x00, 0x00, 0x00, 0x28, 0x00, 0x00, 0x00, 0x00, 0x00,
     0x00, 0x00, 0x00, 0x00]
    (by decide) (Or.inr (by decide)) (by decide) (by decide) (by decide)).trans
    (by decide)

/-! ## C10: the DF5 path consumes exactly 3 bytes -/

theorem orElse2_ok {α : Type} {a b : Except PError α} {v : α}
    (h : orElse2 a b = .ok v) : a = .ok v ∨ b = .ok v := by
  unfold orElse2 at h
  split at h
  next x v2 => exact Or.inl h
  next x e => exact Or.inr h

theorem parse_surveillance_identity_ok {s s2 : BitState}
    {k : ModeSMessageKind}
    (h : parse_surveillance_identity s = .ok (s2, k)) : s2 = s := by
  unfold parse_surveillance_identity at h
  repeat' split at h
  all_goals simp only [Except.ok.injEq, Prod.mk.injEq, reduceCtorEq] at h
  exact h.1.symm

theorem parse_mode_s_message_ok {s s2 : BitState} {k : MessageKind}
    (h : parse_mode_s_message s = .ok (s2, k)) :
    s2 = s ∧ ∃ icao mk, k = .modeSMessage icao mk := by
  unfold parse_mode_s_message parse_mode_s_message_kind at h
  split at h
  next x e heq => simp at h
  next x s1 kind heq =>
    split at h
    next x2 e2 heq2 => simp at h
    next x2 crc heq2 =>
      simp only [Except.ok.injEq, Prod.mk.injEq] at h
      exact ⟨h.1.symm.trans (parse_surveillance_identity_ok heq), _, _, h.2.symm⟩

theorem parse_adsb_message_ok {s s2 : BitState} {k : MessageKind}
    (h : parse_adsb_message s = .ok (s2, k)) :
    ∃ c icao tc ak, k = .adsbMessage c icao tc ak := by
  unfold parse_adsb_message at h
  repeat' split at h
  all_goals simp only [Except.ok.injEq, Prod.mk.injEq, reduceCtorEq] at h
  exact ⟨_, _, _, _, h.2.symm⟩

/-- C10: whenever `parse_binary` succeeds through the DF5 (Mode-S
surveillance identity) path, the remaining slice handed back is the
input minus exactly its first 3 bytes: the surveillance-identity
sub-parser returns its entry cursor unadvanced, so only the top-level
trailing 24-bit parity take consumes input; in particular a 7-byte DF5
frame has 4 of its own bytes reported as unparsed remainder. -/
theorem c10_df5_remainder (bs : List Byte) (df : ℕ) (icao : ICAOAddress)
    (k : ModeSMessageKind) (rest : List Byte)
    (h : parse_binary bs = .ok (⟨df, .modeSMessage icao k⟩, rest)) :
    rest = bs.drop 3 := by
  unfold parse_binary parse_message at h
  split at h
  next x e heq => simp at h
  next x msg rem heq =>
    simp only [Except.ok.injEq, Prod.mk.injEq] at h
    obtain ⟨hmsg, hrem⟩ := h
    split at heq
    next x2 e2 heq2 => simp at heq
    next x2 s1 dfv heq2 =>
      split at heq
      next x3 e3 heq3 => simp at heq
      next x3 s2 kind heq3 =>
        split at heq
        next x4 e4 heq4 => simp at heq
        next x4 s3 v heq4 =>
          simp only [Except.ok.injEq, Prod.mk.injEq] at heq
          obtain ⟨hmsg2, hrem2⟩ := heq
          rw [← hmsg2] at hmsg
          simp only [Message.mk.injEq] at hmsg
          obtain ⟨hdf, hkind⟩ := hmsg
          have hs1 : s1 = (bs, 0) := peekBitsN_ok_state heq2
          subst hs1
          rcases orElse2_ok heq3 with hms | halt
          · obtain ⟨hs2, icao2, mk2, hk2⟩ := parse_mode_s_message_ok hms
            subst hs2
            obtain ⟨hst, -⟩ := takeBitsN_ok_inv (by norm_num) heq4
            rw [← hrem, ← hrem2, hst]
            simp
          · rcases orElse2_ok halt with hadsb | hunk
            · obtain ⟨c, i2, t2, ak, hk⟩ := parse_adsb_message_ok hadsb
              rw [hk] at hkind
              simp at hkind
            · simp only [parse_unknown, Except.ok.injEq, Prod.mk.injEq] at hunk
              rw [← hunk.2] at hkind
              simp at hkind

/-- C10 witness: the 7-byte DF5 reference frame leaves its last 4
bytes as remainder, which is the input minus 3 bytes. -/
theorem c10_df5_remainder_witness :
    ([0x08, 0xF4, 0x60, 0xE0] : List Byte) =
      ([0x28, 0x00, 0x08, 0x08, 0xF4, 0x60, 0xE0] : List Byte).drop 3 :=
  c10_df5_remainder [0x28, 0x00, 0x08, 0x08, 0xF4, 0x60, 0xE0] 5
    ⟨0xA4, 0x04, 0x42⟩ (.surveillanceIdentity ⟨0x12, 0x00⟩)
    [0x08, 0xF4, 0x60, 0xE0] (by decide)

/-! ## C1: robustness of `parse_binary` on arbitrary input -/

/-- C1: on every byte string of length 0 to 32 (the empty and all-zero
strings included) `parse_binary` yields either a structured message or
a typed failure — the embedding is a total function, so no input can
abort it.  The two operations the Rust source leaves unguarded are
covered by the remaining conjuncts: a bit-level read that would pass
the end of the buffer is refused by the cursor itself with a typed
`Eof` failure before any byte is touched (conjunct 2, mirroring the
bounds check `nom` performs ahead of every access), and the single
unchecked `u16` addition of the altitude decoder can never overflow
(conjunct 3), while the 9-bit vertical-rate composition stays below
`2^15` so its checked multiply and `i16` sign application cannot
overflow either (conjunct 4).  All other arithmetic in the decode path
is overflow-checked in the source and embedded as such. -/
theorem c1_parse_binary_robust :
    (∀ bs : List Byte, bs.length ≤ 32 →
      (∃ m r, parse_binary bs = .ok (m, r)) ∨
        (∃ e, parse_binary bs = .error e)) ∧
    (∀ (bs : List Byte) (off n : ℕ), n ≠ 0 → bs.length * 8 < n + off →
      takeBitsN n (bs, off) = .error .eof) ∧
    (∀ l r : ℕ, l < 2 ^ 7 → r < 2 ^ 4 → rotateLeft16 l 4 + r < 2 ^ 16) ∧
    (∀ v : ℕ, v < 2 ^ 9 → (v - 1) * 64 < 2 ^ 15) := by
  refine ⟨?_, ?_, ?_, ?_⟩
  · intro bs _
    rcases h : parse_binary bs with e | ⟨m, r⟩
    · exact Or.inr ⟨e, rfl⟩
    · exact Or.inl ⟨m, r, rfl⟩
  · intro bs off n hn hlt
    exact takeBitsN_eq_eof n bs off hn hlt
  · intro l r hl hr
    have hh : ∀ a < 2 ^ 7, ∀ b < 2 ^ 4, rotateLeft16 a 4 + b < 2 ^ 16 := by
      decide
    exact hh l hl r hr
  · intro v hv
    omega

/-- C1 witness: the conjuncts applied at the empty and 1-byte inputs
and at the extreme field values. -/
theorem c1_parse_binary_robust_witness :
    ((∃ m r, parse_binary [0x00] = .ok (m, r)) ∨
      (∃ e, parse_binary [0x00] = .error e)) ∧
    takeBitsN 5 (([] : List Byte), 0) = .error .eof ∧
    rotateLeft16 127 4 + 15 < 2 ^ 16 ∧
    (511 - 1) * 64 < 2 ^ 15 :=
  ⟨c1_parse_binary_robust.1 [0x00] (by decide),
   c1_parse_binary_robust.2.1 [] 0 5 (by decide) (by decide),
   c1_parse_binary_robust.2.2.1 127 15 (by decide) (by decide),
   c1_parse_binary_robust.2.2.2 511 (by decide)⟩

end Adsb

